import Mathlib

/-!
# Verification of the privileged-settings editing core
# (src/client/contexts/PrivilegedSettingsContext.ts)

This file shallowly embeds the aggregation + dirty-tracking + dispatch
coordination logic of `PrivilegedSettingsContext.ts` and proves the spec's
testable properties about it.

Modelling choices:
* JavaScript JSON-serialisable values are the inductive `JValue`
  (null, booleans, integers for numbers, strings, arrays, objects).
  A possibly-`undefined` JavaScript value is `Option JValue` (`none` =
  `undefined`).
* `JSON.stringify` is `stringify`; `JSON.stringify` applied to a possibly
  `undefined` value is `stringifyOpt` (in JavaScript
  `JSON.stringify(undefined)` evaluates to `undefined`, i.e. `none`).
* The facades (`save`, `cancel`, section `reset`, setting `update`/`reset`)
  are pure functions from their inputs (the group/section descriptor, the
  persisted-setting lookup `querySetting`, the current user's language, the
  outcome of the awaited `dispatch`) to the list of effects they perform,
  in order.
-/

namespace RocketChatSettings

mutual
/-- JSON-like JavaScript values.  `JList`/`JFields` are spelled-out list
types so that all recursions below are structural and kernel-reducible. -/
inductive JValue : Type where
  | null : JValue
  | bool : Bool → JValue
  | num : Int → JValue
  | str : String → JValue
  | arr : JList → JValue
  | obj : JFields → JValue
  deriving DecidableEq, Repr

/-- Array payloads of a `JValue`. -/
inductive JList : Type where
  | nil : JList
  | cons : JValue → JList → JList
  deriving DecidableEq, Repr

/-- Object payloads of a `JValue`: ordered key/value fields. -/
inductive JFields : Type where
  | nil : JFields
  | cons : String → JValue → JFields → JFields
  deriving DecidableEq, Repr
end

/-- JSON string escaping of one character, as `JSON.stringify` does. -/
def escapeChar (c : Char) : String :=
  if c = '"' then "\\\""
  else if c = '\\' then "\\\\"
  else if c = '\n' then "\\n"
  else if c = '\t' then "\\t"
  else if c = '\r' then "\\r"
  else String.singleton c

/-- JSON string escaping, as `JSON.stringify` does for string payloads. -/
def escapeString (s : String) : String :=
  String.join (s.toList.map escapeChar)

mutual
/-- Serialisation `JSON.stringify` on a defined JavaScript value. -/
def stringify : JValue → String
  | .null => "null"
  | .bool true => "true"
  | .bool false => "false"
  | .num n => toString n
  | .str s => "\"" ++ escapeString s ++ "\""
  | .arr xs => "[" ++ stringifyList xs ++ "]"
  | .obj fs => "\x7b" ++ stringifyFields fs ++ "\x7d"

/-- Comma-separated serialisation of array elements. -/
def stringifyList : JList → String
  | .nil => ""
  | .cons v .nil => stringify v
  | .cons v tl => stringify v ++ "," ++ stringifyList tl

/-- Comma-separated serialisation of object fields. -/
def stringifyFields : JFields → String
  | .nil => ""
  | .cons k v .nil => "\"" ++ escapeString k ++ "\":" ++ stringify v
  | .cons k v tl =>
      "\"" ++ escapeString k ++ "\":" ++ stringify v ++ "," ++ stringifyFields tl
end

/-- Serialisation `JSON.stringify` on a possibly-`undefined` value: in JavaScript
`JSON.stringify(undefined)` is `undefined`. -/
def stringifyOpt : Option JValue → Option String :=
  Option.map stringify

/-- The deep structural equality the source uses for dirty detection:
`JSON.stringify(a) === JSON.stringify(b)` on possibly-`undefined` values. -/
def deepEqOpt (a b : Option JValue) : Prop :=
  stringifyOpt a = stringifyOpt b

instance (a b : Option JValue) : Decidable (deepEqOpt a b) := by
  unfold deepEqOpt; infer_instance

/-- JavaScript truthiness of a defined JSON value. -/
def truthy : JValue → Bool
  | .null => false
  | .bool b => b
  | .num n => !(n == 0)
  | .str s => !(s == "")
  | .arr _ => true
  | .obj _ => true

/-- JavaScript truthiness of a possibly-`undefined` value
(`undefined` is falsy). -/
def truthyOpt : Option JValue → Bool
  | none => false
  | some v => truthy v

/-- JavaScript `a || b` on possibly-`undefined` values. -/
def jsOr (a b : Option JValue) : Option JValue :=
  if truthyOpt a then a else b

/-- Persisted setting record.  `ISetting` is imported from
`definition/ISetting` (not under `src/`); the fields are the ones the context
uses plus the spec §3 SettingRecord shape
`{ id, groupId, sectionName?, value, editor, packageValue, packageEditor }`.
A field a record may lack (JavaScript `undefined`) is an `Option`. -/
structure ISetting where
  _id : String
  groupId : Option String := none
  sectionName : Option String := none
  value : Option JValue := none
  editor : Option JValue := none
  packageValue : Option JValue := none
  packageEditor : Option JValue := none
  deriving DecidableEq, Repr

/-- Editable overlay record: `IEditableSetting extends ISetting` with `disabled` and `changed`
(source lines 15–18). -/
structure IEditableSetting extends ISetting where
  disabled : Bool
  changed : Bool
  deriving DecidableEq, Repr

/-- Aggregate `SectionDescriptor` (source lines 20–26). -/
structure SectionDescriptor where
  name : String
  editableSettings : List IEditableSetting
  settings : List String
  changed : Bool
  canReset : Bool
  deriving DecidableEq, Repr

/-- Aggregate `GroupDescriptor = IEditableSetting & { editableSettings, sections,
changed }` (source lines 28–32). -/
structure GroupDescriptor extends IEditableSetting where
  editableSettings : List IEditableSetting
  sections : List String
  deriving DecidableEq, Repr

/-- A `Partial<ISetting>` projection `{ _id, value, editor }` as passed to
`dispatch` by `save`. -/
structure SettingChange where
  _id : String
  value : Option JValue
  editor : Option JValue
  deriving DecidableEq, Repr

/-- One patch object passed to `dispatchToEditableSettings`.  Each field is
`none` when the corresponding key is absent from the object literal (e.g. the
`{}` produced by `cancel` for a missing persisted record, or the keys dropped
by the `...value !== undefined && { value }` spreads in `update`).  A present
`value`/`editor` key holds a possibly-`undefined` JavaScript value. -/
structure EditablePatch where
  _id : Option String := none
  value : Option (Option JValue) := none
  editor : Option (Option JValue) := none
  changed : Option Bool := none
  deriving DecidableEq, Repr

/-- The `{ value, editor }` argument object of the debounced `update`
callback; a missing (undefined) field is `none`. -/
structure SettingPatchArgs where
  value : Option JValue := none
  editor : Option JValue := none
  deriving DecidableEq, Repr

/-- The classified outcomes reported through `dispatchToastMessage`. -/
inductive ToastKind : Type where
  | success : ToastKind
  | error : ToastKind
  deriving DecidableEq, Repr

/-- One observable effect of a facade, in execution order:
`dispatch(changes)`, `dispatchToEditableSettings(patches)`,
`loadLanguage(lng)` and `dispatchToastMessage({ type })`. -/
inductive SettingsEffect : Type where
  | dispatch : List SettingChange → SettingsEffect
  | overlayDispatch : List EditablePatch → SettingsEffect
  | loadLanguage : Option JValue → SettingsEffect
  | toast : ToastKind → SettingsEffect
  deriving DecidableEq, Repr

/-- Lookup `getSettingsGroup(groupId)?.editableSettings ?? []` (source lines 129,
158): the member settings of the group descriptor, or `[]` when the group is
absent. -/
def groupEditableSettings : Option GroupDescriptor → List IEditableSetting
  | none => []
  | some g => g.editableSettings

/-- The batch `save` builds (source lines 129–131): member settings with
`changed` true, projected to `{ _id, value, editor }`. -/
def saveChanges (group : Option GroupDescriptor) : List SettingChange :=
  ((groupEditableSettings group).filter fun s => s.changed).map
    fun s => { _id := s._id, value := s.value, editor := s.editor }

/-- Expression `changes.filter(({ _id }) => _id === 'Language').shift()?.value`
(source line 142). -/
def dispatchedLanguageValue (changes : List SettingChange) : Option JValue :=
  ((changes.filter fun c => c._id == "Language").head?).bind fun c => c.value

/-- Expression `user?.language || ⟨dispatched Language value⟩ || 'en'` (source lines
141–143), with JavaScript truthiness. -/
def saveLng (userLanguage dispatchedLanguage : Option JValue) : Option JValue :=
  jsOr (jsOr userLanguage dispatchedLanguage) (some (.str "en"))

/-- The effect trace of one `save` invocation (source lines 128–154).
`dispatchSucceeds` abstracts whether the awaited `dispatch(changes)`
resolves or rejects; the locale-reload and notification collaborators are
assumed not to throw (spec §6 boundary contracts). -/
def saveEffects (group : Option GroupDescriptor) (userLanguage : Option JValue)
    (dispatchSucceeds : Bool) : List SettingsEffect :=
  let changes := saveChanges group
  if changes.length = 0 then
    []
  else if dispatchSucceeds then
    if changes.any fun c => c._id == "Language" then
      [.dispatch changes,
        .loadLanguage (saveLng userLanguage (dispatchedLanguageValue changes)),
        .toast .success]
    else
      [.dispatch changes, .toast .success]
  else
    [.dispatch changes, .toast .error]

/-- The patch `cancel` builds for one changed member (source lines 160–172):
`{}` when `querySetting(id).getCurrentValue()` is absent, otherwise the
persisted `{ _id, value, editor, changed: false }`. -/
def cancelPatch (querySetting : String → Option ISetting)
    (editableSetting : IEditableSetting) : EditablePatch :=
  match querySetting editableSetting._id with
  | none => {}
  | some setting =>
      { _id := some setting._id,
        value := some setting.value,
        editor := some setting.editor,
        changed := some false }

/-- The patch list `cancel` passes to `dispatchToEditableSettings`
(source lines 157–173). -/
def cancelPatches (group : Option GroupDescriptor)
    (querySetting : String → Option ISetting) : List EditablePatch :=
  ((groupEditableSettings group).filter fun s => s.changed).map
    (cancelPatch querySetting)

/-- The effect trace of one `cancel` invocation (source lines 156–174): a
single `dispatchToEditableSettings` call. -/
def cancelEffects (group : Option GroupDescriptor)
    (querySetting : String → Option ISetting) : List SettingsEffect :=
  [.overlayDispatch (cancelPatches group querySetting)]

/-- The patch the section-level `reset` builds for one enabled member
(source lines 205–212): package defaults, with `changed` recomputed from the
member's current `(value, editor)` against `(packageValue, packageEditor)`. -/
def sectionResetPatch (s : IEditableSetting) : EditablePatch :=
  { _id := some s._id,
    value := some s.packageValue,
    editor := some s.packageEditor,
    changed := some
      ((stringifyOpt s.value != stringifyOpt s.packageValue)
        || (stringifyOpt s.editor != stringifyOpt s.packageEditor)) }

/-- The patch list the section-level `reset` passes to
`dispatchToEditableSettings` (source lines 195–214): enabled members only;
nothing when the section descriptor is absent (early return, line 198). -/
def sectionResetPatches : Option SectionDescriptor → List EditablePatch
  | none => []
  | some sectionDescriptor =>
      (sectionDescriptor.editableSettings.filter fun s => !s.disabled).map
        sectionResetPatch

/-- The effect trace of one section-level `reset` invocation. -/
def sectionResetEffects : Option SectionDescriptor → List SettingsEffect
  | none => []
  | some sectionDescriptor =>
      [.overlayDispatch (sectionResetPatches (some sectionDescriptor))]

/-- The body of the debounced `update` callback (source lines 238–252): the
patches it passes to `dispatchToEditableSettings` ([] when the persisted
record is absent, early return at line 241).  Note the spreads include
`value`/`editor` only when the argument is defined, while `changed` compares
the raw arguments (possibly `undefined`) against the persisted record. -/
def updateBody (querySetting : String → Option ISetting) (_id : String)
    (args : SettingPatchArgs) : List EditablePatch :=
  match querySetting _id with
  | none => []
  | some persistedSetting =>
      [{ _id := some _id,
         value := args.value.map some,
         editor := args.editor.map some,
         changed := some
           ((stringifyOpt persistedSetting.value != stringifyOpt args.value)
             || (stringifyOpt persistedSetting.editor != stringifyOpt args.editor)) }]

/-- The body of the debounced setting-level `reset` callback (source lines
254–268): the patches it passes to `dispatchToEditableSettings`. -/
def resetBody (querySetting : String → Option ISetting) (_id : String) :
    List EditablePatch :=
  match querySetting _id with
  | none => []
  | some persistedSetting =>
      [{ _id := some persistedSetting._id,
         value := some persistedSetting.packageValue,
         editor := some persistedSetting.packageEditor,
         changed := some
           ((stringifyOpt persistedSetting.packageValue
               != stringifyOpt persistedSetting.value)
             || (stringifyOpt persistedSetting.packageEditor
               != stringifyOpt persistedSetting.editor)) }]

/-- The debounce window in milliseconds both `useDebouncedCallback` facades
pass (source lines 252, 268). -/
def updateDebounceMs : Nat := 100

/-- Modelled from the spec: the editable overlay entry creation.  The overlay
store behind `dispatchToEditableSettings` lives in the context provider,
which is not under `src/`.  Spec §4.1/§3: an overlay entry is "created lazily
on first access ... (seeded from the persisted record)" with
`changed = false`; `disabled` is supplied by an external relevance predicate
(spec §6), seeded here as `false`. -/
def seedEntry (ps : ISetting) : IEditableSetting :=
  { toISetting := ps, disabled := false, changed := false }

/-- Modelled from the spec: merging one patch into one overlay entry.
Spec §4.1 `applyPatches`: "merges into (or creates) the overlay entry for
that id, recomputing `changed` when not explicitly supplied by comparing the
merged `(value, editor)` against the persisted record's `(value, editor)`
using deep structural equality". -/
def applyPatchEntry (persisted : Option ISetting) (e : IEditableSetting)
    (p : EditablePatch) : IEditableSetting :=
  let v := p.value.getD e.value
  let ed := p.editor.getD e.editor
  { e with
    value := v
    editor := ed
    changed := p.changed.getD
      (match persisted with
        | some ps =>
            (stringifyOpt v != stringifyOpt ps.value)
              || (stringifyOpt ed != stringifyOpt ps.editor)
        | none => e.changed) }

/-- Modelled from the spec: applying one patch to the overlay (a keyed map
`SettingId → entry`).  Spec §4.1: "a patch referencing an unknown id is a
no-op for storage but still safe (never throws)"; a patch without an id (the
`{}` emitted by `cancel` on a missing record) touches nothing. -/
def overlayApply (querySetting : String → Option ISetting)
    (ov : String → Option IEditableSetting) (p : EditablePatch) :
    String → Option IEditableSetting :=
  match p._id with
  | none => ov
  | some i => fun j =>
      if j = i then
        match ov i, querySetting i with
        | some e, _ => some (applyPatchEntry (querySetting i) e p)
        | none, some ps => some (applyPatchEntry (some ps) (seedEntry ps) p)
        | none, none => none
      else ov j

/-- Modelled from the spec: applying a patch list in order (spec §5: "writes
are applied in call order"). -/
def overlayApplyList (querySetting : String → Option ISetting)
    (ov : String → Option IEditableSetting) :
    List EditablePatch → (String → Option IEditableSetting)
  | [] => ov
  | p :: ps => overlayApplyList querySetting (overlayApply querySetting ov p) ps

/-- Modelled from the spec: the events one debounced facade instance can
receive.  `useDebouncedCallback` comes from `@rocket.chat/fuselage-hooks`,
not under `src/`.  Spec §5: "a call schedules a deferred effect and returns
immediately; a later call to the same debounced key before the timer fires
cancels the pending effect and reschedules with updated arguments
(trailing-edge coalescing, not leading-edge)"; "unsubscribing a debounced
facade's owner must cancel any pending timer".  `call a` invokes the facade
with arguments `a`; `elapse` is the debounce window passing with no further
call; `unsubscribe` is the owner tearing down. -/
inductive DebEvent (α : Type) : Type where
  | call : α → DebEvent α
  | elapse : DebEvent α
  | unsubscribe : DebEvent α
  deriving DecidableEq, Repr

/-- Modelled from the spec: one step of a debounced facade instance.  The
state is the pending (rescheduled) arguments; the second component lists the
argument packs whose deferred effect fires at this step. -/
def debStep {α : Type} (pending : Option α) : DebEvent α → Option α × List α
  | .call a => (some a, [])
  | .elapse =>
      match pending with
      | some a => (none, [a])
      | none => (none, [])
  | .unsubscribe => (none, [])

/-- Modelled from the spec: running a debounced facade instance over an event
sequence, collecting the fired argument packs in order. -/
def debRun {α : Type} (pending : Option α) : List (DebEvent α) → List α
  | [] => []
  | ev :: evs => (debStep pending ev).2 ++ debRun (debStep pending ev).1 evs

/-- Modelled from the spec: the per-key debounce registry — "Debounce is
per-`(id)` instance, not global" (spec §4.5).  An event addressed to key `k`
steps only `k`'s instance; fires are tagged with their key. -/
def keyedDebStep {α : Type} (st : String → Option α) (k : String)
    (ev : DebEvent α) : (String → Option α) × List (String × α) :=
  ((fun j => if j = k then (debStep (st k) ev).1 else st j),
    (debStep (st k) ev).2.map fun a => (k, a))

/-- The overlay mutations (one `dispatchToEditableSettings` call each, with
a nonempty patch list) performed by one debounced `update` instance for
setting `_id` over an event sequence. -/
def updateMutations (querySetting : String → Option ISetting) (_id : String)
    (evs : List (DebEvent SettingPatchArgs)) : List (List EditablePatch) :=
  ((debRun none evs).map (updateBody querySetting _id)).filter fun ps => !ps.isEmpty

/-- Number of `dispatch` calls in an effect trace. -/
def dispatchCount (es : List SettingsEffect) : Nat :=
  es.countP fun e => match e with | .dispatch _ => true | _ => false

/-- Number of `loadLanguage` calls in an effect trace. -/
def loadLanguageCount (es : List SettingsEffect) : Nat :=
  es.countP fun e => match e with | .loadLanguage _ => true | _ => false

/-- Number of toast messages of a given kind in an effect trace. -/
def toastKindCount (k : ToastKind) (es : List SettingsEffect) : Nat :=
  es.countP fun e => match e with | .toast k' => k' == k | _ => false

/-- Number of toast messages (of any kind) in an effect trace. -/
def toastCount (es : List SettingsEffect) : Nat :=
  es.countP fun e => match e with | .toast _ => true | _ => false

/-! ## Concrete fixtures used by witnesses and counterexamples -/

/-- A member setting with a pending edit (`changed = true`). -/
def sA : IEditableSetting :=
  { _id := "A", value := some (.str "v1"), editor := some (.str "color"),
    packageValue := some (.str "v0"), packageEditor := some (.str "color"),
    disabled := false, changed := true }

/-- A member setting without pending edits (`changed = false`). -/
def sB : IEditableSetting :=
  { _id := "B", value := some (.num 2), editor := none,
    packageValue := some (.num 2), packageEditor := none,
    disabled := false, changed := false }

/-- A pending edit of the `Language` setting. -/
def sLang : IEditableSetting :=
  { _id := "Language", value := some (.str "pt-BR"), editor := none,
    packageValue := some (.str "en"), packageEditor := none,
    disabled := false, changed := true }

/-- A group holding the three fixture members. -/
def gW : GroupDescriptor :=
  { _id := "G", disabled := false, changed := true,
    editableSettings := [sA, sB, sLang], sections := [] }

/-- A group whose members carry no pending edit. -/
def gQuiet : GroupDescriptor :=
  { _id := "G0", disabled := false, changed := false,
    editableSettings := [sB], sections := [] }

/-- The persisted record behind fixture `sA`. -/
def psA : ISetting :=
  { _id := "A", value := some (.str "v0"), editor := some (.str "color"),
    packageValue := some (.str "v0"), packageEditor := some (.str "color") }

/-- The persisted record behind fixture `sB`. -/
def psB : ISetting :=
  { _id := "B", value := some (.num 2), editor := none,
    packageValue := some (.num 2), packageEditor := none }

/-- The persisted record behind fixture `sLang`. -/
def psLang : ISetting :=
  { _id := "Language", value := some (.str "en"), editor := none,
    packageValue := some (.str "en"), packageEditor := none }

/-- A persisted-settings lookup for the fixture ids (any other id has no
persisted record). -/
def qsW : String → Option ISetting
  | "A" => some psA
  | "B" => some psB
  | "Language" => some psLang
  | _ => none

/-! ## Helper lemmas -/

/-- The four possible shapes of a `save` effect trace. -/
theorem saveEffects_cases (group : Option GroupDescriptor) (u : Option JValue)
    (ok : Bool) :
    (saveChanges group = [] ∧ saveEffects group u ok = [])
    ∨ (saveChanges group ≠ [] ∧ ok = true
        ∧ ((saveChanges group).any fun c => c._id == "Language") = true
        ∧ saveEffects group u ok = [.dispatch (saveChanges group),
            .loadLanguage (saveLng u (dispatchedLanguageValue (saveChanges group))),
            .toast .success])
    ∨ (saveChanges group ≠ [] ∧ ok = true
        ∧ ((saveChanges group).any fun c => c._id == "Language") = false
        ∧ saveEffects group u ok = [.dispatch (saveChanges group), .toast .success])
    ∨ (saveChanges group ≠ [] ∧ ok = false
        ∧ saveEffects group u ok = [.dispatch (saveChanges group), .toast .error]) := by
  by_cases h : saveChanges group = []
  · exact Or.inl ⟨h, by simp [saveEffects, h]⟩
  · have hlen : ¬ (saveChanges group).length = 0 := by
      simpa [List.length_eq_zero] using h
    cases hok : ok with
    | false =>
        exact Or.inr (Or.inr (Or.inr ⟨h, rfl, by simp [saveEffects, hlen]⟩))
    | true =>
        by_cases hl : ((saveChanges group).any fun c => c._id == "Language") = true
        · exact Or.inr (Or.inl ⟨h, rfl, hl, by simp [saveEffects, hlen, hl]⟩)
        · have hl' : ((saveChanges group).any fun c => c._id == "Language") = false :=
            by simpa using hl
          exact Or.inr (Or.inr (Or.inl ⟨h, rfl, hl',
            by simp [saveEffects, hlen, hl']⟩))

/-! ## Claims -/

/-- C2: `save(groupId)` collects exactly the member settings of the group
whose `changed` flag is true, projects each to `{ _id, value, editor }`, and
passes that batch to `dispatch` in a single call; when no member setting is
changed, `dispatch` is never invoked (the invocation is a no-op). -/
theorem save_dispatches_exactly_changed_batch (group : Option GroupDescriptor)
    (userLanguage : Option JValue) (dispatchSucceeds : Bool) :
    (∀ c : SettingChange, c ∈ saveChanges group ↔
        ∃ s : IEditableSetting, s ∈ groupEditableSettings group ∧
          s.changed = true
          ∧ c = { _id := s._id, value := s.value, editor := s.editor })
      ∧ dispatchCount (saveEffects group userLanguage dispatchSucceeds)
          = (if saveChanges group = [] then 0 else 1)
      ∧ (∀ b : List SettingChange,
          SettingsEffect.dispatch b ∈ saveEffects group userLanguage dispatchSucceeds →
            b = saveChanges group)
      ∧ (saveChanges group = [] →
          saveEffects group userLanguage dispatchSucceeds = []) := by
  refine ⟨?_, ?_, ?_, ?_⟩
  · intro c
    constructor
    · intro hc
      simp only [saveChanges, List.mem_map, List.mem_filter] at hc
      obtain ⟨s, ⟨hs, hch⟩, rfl⟩ := hc
      exact ⟨s, hs, hch, rfl⟩
    · rintro ⟨s, hs, hch, rfl⟩
      simp only [saveChanges, List.mem_map, List.mem_filter]
      exact ⟨s, ⟨hs, hch⟩, rfl⟩
  · rcases saveEffects_cases group userLanguage dispatchSucceeds with
      ⟨h, he⟩ | ⟨h, _, _, he⟩ | ⟨h, _, _, he⟩ | ⟨h, _, he⟩ <;>
      simp [he, h, dispatchCount]
  · intro b hb
    rcases saveEffects_cases group userLanguage dispatchSucceeds with
      ⟨_, he⟩ | ⟨_, _, _, he⟩ | ⟨_, _, _, he⟩ | ⟨_, _, he⟩ <;>
      simp [he] at hb <;> exact hb
  · intro h
    rcases saveEffects_cases group userLanguage dispatchSucceeds with
      ⟨_, he⟩ | ⟨h', _, _, _⟩ | ⟨h', _, _, _⟩ | ⟨h', _, _⟩
    · exact he
    all_goals exact absurd h h'

/-- C2 witness: on the fixture group, `save` dispatches once with exactly the
changed members `sA` and `sLang` projected, and a group with nothing changed
produces no effects at all. -/
theorem save_dispatches_exactly_changed_batch_witness :
    saveEffects (some gQuiet) none true = [] :=
  (save_dispatches_exactly_changed_batch (some gQuiet) none true).2.2.2 (by decide)

/-- C5: for every successful `save` whose dispatched batch contains the
`Language` setting, exactly one locale-reload call is made, with the language
`user?.language || ⟨dispatched Language value⟩ || 'en'`, and it is awaited
before the success notification: the trace is exactly
`[dispatch, loadLanguage, toast success]`. -/
theorem save_language_triggers_one_locale_reload (group : Option GroupDescriptor)
    (userLanguage : Option JValue)
    (hne : saveChanges group ≠ [])
    (hlang : ((saveChanges group).any fun c => c._id == "Language") = true) :
    saveEffects group userLanguage true =
      [.dispatch (saveChanges group),
        .loadLanguage (saveLng userLanguage (dispatchedLanguageValue (saveChanges group))),
        .toast .success]
    ∧ loadLanguageCount (saveEffects group userLanguage true) = 1 := by
  rcases saveEffects_cases group userLanguage true with
    ⟨h, _⟩ | ⟨_, _, _, he⟩ | ⟨_, _, hl, _⟩ | ⟨_, hok, _⟩
  · exact absurd h hne
  · exact ⟨he, by simp [he, loadLanguageCount]⟩
  · rw [hlang] at hl; exact absurd hl (by simp)
  · exact absurd hok (by simp)

/-- C5 witness: saving the fixture group (whose batch contains `Language`)
yields exactly the dispatch–loadLanguage–success trace. -/
theorem save_language_triggers_one_locale_reload_witness :
    saveEffects (some gW) none true =
      [.dispatch (saveChanges (some gW)),
        .loadLanguage (saveLng none (dispatchedLanguageValue (saveChanges (some gW)))),
        .toast .success]
    ∧ loadLanguageCount (saveEffects (some gW) none true) = 1 :=
  save_language_triggers_one_locale_reload (some gW) none (by decide) (by decide)

/-- C10: the current-user-language fallback is decided by JavaScript
truthiness, not presence: when the supplied user language is falsy (e.g. the
empty string) the locale reload receives the dispatched `Language` value, and
receives `"en"` when that dispatched value is also falsy. -/
theorem save_language_fallback_is_truthiness (group : Option GroupDescriptor)
    (userLanguage : Option JValue)
    (hne : saveChanges group ≠ [])
    (hlang : ((saveChanges group).any fun c => c._id == "Language") = true)
    (hfalsy : truthyOpt userLanguage = false) :
    (truthyOpt (dispatchedLanguageValue (saveChanges group)) = true →
      SettingsEffect.loadLanguage (dispatchedLanguageValue (saveChanges group))
        ∈ saveEffects group userLanguage true)
    ∧ (truthyOpt (dispatchedLanguageValue (saveChanges group)) = false →
      SettingsEffect.loadLanguage (some (.str "en"))
        ∈ saveEffects group userLanguage true) := by
  obtain ⟨he, -⟩ :=
    save_language_triggers_one_locale_reload group userLanguage hne hlang
  constructor
  · intro ht
    simp [he, saveLng, jsOr, hfalsy, ht]
  · intro ht
    simp [he, saveLng, jsOr, hfalsy, ht]

/-- C10 witness: with `user.language = ""` (falsy) the locale reload receives
the dispatched `Language` value `"pt-BR"`. -/
theorem save_language_fallback_is_truthiness_witness :
    SettingsEffect.loadLanguage (dispatchedLanguageValue (saveChanges (some gW)))
      ∈ saveEffects (some gW) (some (.str "")) true :=
  (save_language_fallback_is_truthiness (some gW) (some (.str ""))
    (by decide) (by decide) (by decide)).1 (by decide)

/-- C6 counterexample: a `save` invocation on a group with no changed member
reports no outcome at all (the early return at line 133 fires before any
toast), refuting "exactly one outcome per invocation". -/
theorem save_reports_one_outcome_counterexample :
    saveEffects (some gQuiet) none true = []
    ∧ toastCount (saveEffects (some gQuiet) none true) = 0
    ∧ ¬ toastCount (saveEffects (some gQuiet) none true) = 1 := by decide

/-- C6 amended: for every `save` invocation whose collected batch is
non-empty, exactly one outcome is reported — success when the dispatch
resolves, error when it rejects, never both; an invocation whose batch is
empty (nothing changed) reports no outcome. -/
theorem save_reports_one_outcome_when_batch_nonempty
    (group : Option GroupDescriptor) (userLanguage : Option JValue)
    (dispatchSucceeds : Bool) :
    (saveChanges group ≠ [] →
      toastCount (saveEffects group userLanguage dispatchSucceeds) = 1
      ∧ toastKindCount .success (saveEffects group userLanguage dispatchSucceeds)
          = (if dispatchSucceeds then 1 else 0)
      ∧ toastKindCount .error (saveEffects group userLanguage dispatchSucceeds)
          = (if dispatchSucceeds then 0 else 1))
    ∧ (saveChanges group = [] →
        toastCount (saveEffects group userLanguage dispatchSucceeds) = 0) := by
  rcases saveEffects_cases group userLanguage dispatchSucceeds with
    ⟨h, he⟩ | ⟨h, hok, _, he⟩ | ⟨h, hok, _, he⟩ | ⟨h, hok, he⟩
  · exact ⟨fun hne => absurd h hne, fun _ => by simp [he, toastCount]⟩
  · subst hok
    exact ⟨fun _ => by simp [he, toastCount, toastKindCount], fun h0 => absurd h0 h⟩
  · subst hok
    exact ⟨fun _ => by simp [he, toastCount, toastKindCount], fun h0 => absurd h0 h⟩
  · subst hok
    exact ⟨fun _ => by simp [he, toastCount, toastKindCount], fun h0 => absurd h0 h⟩

/-- C6 witness: on the fixture group (non-empty batch) with a failing
dispatch, exactly one toast is reported and it is the error toast. -/
theorem save_reports_one_outcome_when_batch_nonempty_witness :
    toastCount (saveEffects (some gW) none false) = 1
    ∧ toastKindCount .success (saveEffects (some gW) none false)
        = (if false then 1 else 0)
    ∧ toastKindCount .error (saveEffects (some gW) none false)
        = (if false then 0 else 1) :=
  (save_reports_one_outcome_when_batch_nonempty (some gW) none false).1 (by decide)

/-- C4: `cancel(groupId)` patches every changed member with a persisted
record back to the persisted `{ value, editor, changed: false }`; a changed
member whose persisted record is missing yields only the empty patch `{}` —
no emitted patch carries its id, so it is skipped without any exception (the
embedding is a total function); and `cancel` never invokes the persistence
collaborator `dispatch`. -/
theorem cancel_reverts_changed_members (group : Option GroupDescriptor)
    (querySetting : String → Option ISetting)
    (hq : ∀ i ps, querySetting i = some ps → ps._id = i) :
    (∀ s ∈ groupEditableSettings group, s.changed = true →
      ∀ ps, querySetting s._id = some ps →
        ({ _id := some ps._id, value := some ps.value, editor := some ps.editor,
           changed := some false } : EditablePatch) ∈ cancelPatches group querySetting)
    ∧ (∀ p ∈ cancelPatches group querySetting,
        p = ({} : EditablePatch)
        ∨ ∃ s ∈ groupEditableSettings group, ∃ ps : ISetting, s.changed = true
            ∧ querySetting s._id = some ps
            ∧ p = { _id := some ps._id, value := some ps.value,
                    editor := some ps.editor, changed := some false })
    ∧ (∀ s ∈ groupEditableSettings group, s.changed = true →
        querySetting s._id = none →
        ∀ p ∈ cancelPatches group querySetting, p._id ≠ some s._id)
    ∧ (∀ b : List SettingChange,
        SettingsEffect.dispatch b ∉ cancelEffects group querySetting) := by
  refine ⟨?_, ?_, ?_, ?_⟩
  · intro s hs hch ps hps
    have hmem : cancelPatch querySetting s ∈ cancelPatches group querySetting := by
      simp only [cancelPatches, List.mem_map, List.mem_filter]
      exact ⟨s, ⟨hs, hch⟩, rfl⟩
    rwa [cancelPatch, hps] at hmem
  · intro p hp
    simp only [cancelPatches, List.mem_map, List.mem_filter] at hp
    obtain ⟨s, ⟨hs, hch⟩, rfl⟩ := hp
    rw [cancelPatch]
    cases hps : querySetting s._id with
    | none => exact Or.inl rfl
    | some ps => exact Or.inr ⟨s, hs, ps, hch, hps, rfl⟩
  · intro s hs hch hnone p hp hpid
    simp only [cancelPatches, List.mem_map, List.mem_filter] at hp
    obtain ⟨s', ⟨hs', hch'⟩, rfl⟩ := hp
    rw [cancelPatch] at hpid
    cases hps : querySetting s'._id with
    | none => rw [hps] at hpid; exact Option.noConfusion hpid
    | some ps =>
        rw [hps] at hpid
        have h1 : ps._id = s._id := Option.some.injEq _ _ ▸ (by simpa using hpid)
        have h2 : ps._id = s'._id := hq _ _ hps
        rw [h1] at h2
        rw [← h2] at hps
        rw [hnone] at hps
        exact Option.noConfusion hps
  · intro b
    simp [cancelEffects]

/-- Identity of `qsW`: each persisted record carries the id it is looked up
by. -/
theorem qsW_id : ∀ i ps, qsW i = some ps → ps._id = i := by
  intro i ps h
  unfold qsW at h
  split at h <;> simp_all [psA, psB, psLang] <;> (subst h; rfl)

/-- C4 witness: cancelling the fixture group emits the persisted revert patch
for the changed member `A`. -/
theorem cancel_reverts_changed_members_witness :
    ({ _id := some "A", value := some psA.value, editor := some psA.editor,
       changed := some false } : EditablePatch) ∈ cancelPatches (some gW) qsW :=
  (cancel_reverts_changed_members (some gW) qsW qsW_id).1 sA (by decide) (by decide)
    psA (by decide)

/-- A patch whose id is not `j` (or which has no id) leaves the overlay at
`j` unchanged. -/
theorem overlayApply_ne (querySetting : String → Option ISetting)
    (ov : String → Option IEditableSetting) (p : EditablePatch) (j : String)
    (h : p._id ≠ some j) :
    overlayApply querySetting ov p j = ov j := by
  unfold overlayApply
  cases hp : p._id with
  | none => rfl
  | some i =>
      have hji : ¬ j = i := by
        intro hji; subst hji; exact h hp
      simp [hji]

/-- A patch list none of whose patches carries id `j` leaves the overlay at
`j` unchanged. -/
theorem overlayApplyList_ne (querySetting : String → Option ISetting)
    (ov : String → Option IEditableSetting) (ps : List EditablePatch)
    (j : String) (h : ∀ p ∈ ps, p._id ≠ some j) :
    overlayApplyList querySetting ov ps j = ov j := by
  induction ps generalizing ov with
  | nil => rfl
  | cons p ps ih =>
      rw [overlayApplyList, ih _ fun q hq => h q (List.mem_cons_of_mem p hq)]
      exact overlayApply_ne querySetting ov p j (h p (List.mem_cons_self p ps))

/-- C8: section-level `reset` patches exactly the enabled members of the
section to their package defaults `(packageValue, packageEditor)`; every
disabled member contributes no patch, and (given pairwise-distinct member
ids) applying the emitted patch list leaves a disabled member's overlay
entry untouched. -/
theorem section_reset_targets_enabled_members (sd : SectionDescriptor)
    (querySetting : String → Option ISetting)
    (ov : String → Option IEditableSetting)
    (hnodup : (sd.editableSettings.map fun s => s._id).Nodup) :
    (∀ s ∈ sd.editableSettings, s.disabled = false →
        sectionResetPatch s ∈ sectionResetPatches (some sd)
        ∧ (sectionResetPatch s).value = some s.packageValue
        ∧ (sectionResetPatch s).editor = some s.packageEditor)
    ∧ (∀ p ∈ sectionResetPatches (some sd),
        ∃ s ∈ sd.editableSettings, s.disabled = false ∧ p = sectionResetPatch s)
    ∧ (∀ s ∈ sd.editableSettings, s.disabled = true →
        (∀ p ∈ sectionResetPatches (some sd), p._id ≠ some s._id)
        ∧ overlayApplyList querySetting ov (sectionResetPatches (some sd)) s._id
            = ov s._id) := by
  have hpairs : ∀ a ∈ sd.editableSettings, ∀ b ∈ sd.editableSettings,
      a ≠ b → a._id ≠ b._id := by
    have hpw := (List.pairwise_map.mp hnodup)
    exact hpw.forall (fun a b hab => (hab ∘ Eq.symm : b._id ≠ a._id))
  refine ⟨?_, ?_, ?_⟩
  · intro s hs hd
    refine ⟨?_, rfl, rfl⟩
    simp only [sectionResetPatches, List.mem_map, List.mem_filter]
    exact ⟨s, ⟨hs, by simp [hd]⟩, rfl⟩
  · intro p hp
    simp only [sectionResetPatches, List.mem_map, List.mem_filter] at hp
    obtain ⟨s, ⟨hs, hd⟩, rfl⟩ := hp
    exact ⟨s, hs, by simpa using hd, rfl⟩
  · intro s hs hd
    have hnid : ∀ p ∈ sectionResetPatches (some sd), p._id ≠ some s._id := by
      intro p hp
      simp only [sectionResetPatches, List.mem_map, List.mem_filter] at hp
      obtain ⟨s', ⟨hs', hd'⟩, rfl⟩ := hp
      have hne : s' ≠ s := by
        intro hss; subst hss
        rw [hd] at hd'; simp at hd'
      simp only [sectionResetPatch, ne_eq, Option.some.injEq]
      exact hpairs s' hs' s hs hne
    exact ⟨hnid, overlayApplyList_ne querySetting ov _ _ hnid⟩

/-- A disabled member in a section, on top of the persisted record `psB`. -/
def sDis : IEditableSetting :=
  { _id := "B", value := some (.num 5), editor := none,
    packageValue := some (.num 2), packageEditor := none,
    disabled := true, changed := true }

/-- A section with one enabled (`sA`) and one disabled (`sDis`) member. -/
def sdW : SectionDescriptor :=
  { name := "S", editableSettings := [sA, sDis], settings := ["A", "B"],
    changed := true, canReset := true }

/-- C8 witness: on the fixture section the enabled member `A` gets the
package-defaults patch, and the disabled member `B`'s overlay entry is left
untouched. -/
theorem section_reset_targets_enabled_members_witness :
    (sectionResetPatch sA ∈ sectionResetPatches (some sdW)
      ∧ (sectionResetPatch sA).value = some sA.packageValue
      ∧ (sectionResetPatch sA).editor = some sA.packageEditor)
    ∧ ((∀ p ∈ sectionResetPatches (some sdW), p._id ≠ some sDis._id)
      ∧ overlayApplyList qsW (fun _ => none) (sectionResetPatches (some sdW))
          sDis._id = (fun (_ : String) => none) sDis._id) :=
  ⟨(section_reset_targets_enabled_members sdW qsW (fun _ => none) (by decide)).1
      sA (by decide) (by decide),
    (section_reset_targets_enabled_members sdW qsW (fun _ => none) (by decide)).2.2
      sDis (by decide) (by decide)⟩

/-- Merging the same patch into an entry twice is the same as merging it
once. -/
theorem applyPatchEntry_idem (persisted : Option ISetting)
    (e : IEditableSetting) (p : EditablePatch) :
    applyPatchEntry persisted (applyPatchEntry persisted e p) p
      = applyPatchEntry persisted e p := by
  unfold applyPatchEntry
  cases p.value <;> cases p.editor <;> cases p.changed <;>
    cases persisted <;> simp

/-- Applying the same patch to the overlay twice is the same as applying it
once. -/
theorem overlayApply_idem (querySetting : String → Option ISetting)
    (ov : String → Option IEditableSetting) (p : EditablePatch) :
    overlayApply querySetting (overlayApply querySetting ov p) p
      = overlayApply querySetting ov p := by
  funext j
  unfold overlayApply
  cases hp : p._id with
  | none => rfl
  | some i =>
      by_cases hj : j = i
      · subst hj
        simp only [if_pos rfl]
        cases hov : ov j with
        | some e => simp [applyPatchEntry_idem]
        | none =>
            cases hq : querySetting j with
            | some ps => simp [hq, applyPatchEntry_idem]
            | none => simp [hq]
      · simp [hj]

/-- C7: setting-level `reset(id)` is idempotent — the emitted patch depends
only on the persisted record, which `reset` does not modify, so applying the
reset twice yields the same overlay state as once — and the emitted `changed`
flag is `true` iff the package defaults `(packageValue, packageEditor)`
differ from the persisted `(value, editor)` under deep (JSON) equality. -/
theorem setting_reset_idempotent (querySetting : String → Option ISetting)
    (ov : String → Option IEditableSetting) (_id : String) (ps : ISetting)
    (hps : querySetting _id = some ps) :
    (overlayApplyList querySetting
        (overlayApplyList querySetting ov (resetBody querySetting _id))
        (resetBody querySetting _id)
      = overlayApplyList querySetting ov (resetBody querySetting _id))
    ∧ (∀ p ∈ resetBody querySetting _id, ∃ c : Bool,
        p.changed = some c
        ∧ (c = true ↔
            ¬ (deepEqOpt ps.packageValue ps.value
                ∧ deepEqOpt ps.packageEditor ps.editor))) := by
  constructor
  · simp only [resetBody, hps, overlayApplyList]
    exact overlayApply_idem querySetting ov _
  · intro p hp
    simp only [resetBody, hps, List.mem_singleton] at hp
    subst hp
    refine ⟨_, rfl, ?_⟩
    simp only [deepEqOpt, Bool.or_eq_true, bne_iff_ne, ne_eq]
    constructor
    · rintro (h | h) ⟨h1, h2⟩
      · exact h h1
      · exact h h2
    · intro h
      by_cases h1 : stringifyOpt ps.packageValue = stringifyOpt ps.value
      · by_cases h2 : stringifyOpt ps.packageEditor = stringifyOpt ps.editor
        · exact absurd ⟨h1, h2⟩ h
        · exact Or.inr h2
      · exact Or.inl h1

/-- C7 witness: applying `reset("A")` twice on an empty overlay equals
applying it once, and its emitted flag is `true` exactly because `A`'s
package defaults differ from the persisted values. -/
theorem setting_reset_idempotent_witness :
    overlayApplyList qsW
        (overlayApplyList qsW (fun _ => none) (resetBody qsW "A"))
        (resetBody qsW "A")
      = overlayApplyList qsW (fun _ => none) (resetBody qsW "A") :=
  (setting_reset_idempotent qsW (fun _ => none) "A" psA (by decide)).1

/-- The `changed` flag computed by the facades, characterised as deep
inequality (shared shape of source lines 248–251, 264–266, 209–211). -/
theorem changedFlag_true_iff (pv av pe ae : Option JValue) :
    (((stringifyOpt pv != stringifyOpt av)
        || (stringifyOpt pe != stringifyOpt ae)) = true)
      ↔ ¬ (deepEqOpt av pv ∧ deepEqOpt ae pe) := by
  simp only [deepEqOpt, Bool.or_eq_true, bne_iff_ne, ne_eq]
  constructor
  · rintro (h | h) ⟨h1, h2⟩
    · exact h h1.symm
    · exact h h2.symm
  · intro h
    by_cases h1 : stringifyOpt av = stringifyOpt pv
    · by_cases h2 : stringifyOpt ae = stringifyOpt pe
      · exact absurd ⟨h1, h2⟩ h
      · exact Or.inr fun hc => h2 hc.symm
    · exact Or.inl fun hc => h1 hc.symm

/-- Deep equality is symmetric. -/
theorem deepEqOpt_comm (a b : Option JValue) : deepEqOpt a b ↔ deepEqOpt b a :=
  eq_comm

/-- C1 amended: the emitted `changed` flag is characterised exactly as
follows.  `update` compares the *supplied* `{value, editor}` arguments
against the persisted pair — a missing argument is compared as `undefined` —
so the claimed iff (flag ⇔ resulting pair differs from persisted) holds
whenever both fields are supplied.  Setting-level `reset` compares the
package defaults (the resulting pair) against the persisted pair, as
claimed.  Section-level `reset` compares the member's *current overlay* pair
against the package defaults, not the resulting pair against the persisted
record. -/
theorem dirty_flag_characterization (querySetting : String → Option ISetting)
    (_id : String) (ps : ISetting) (args : SettingPatchArgs)
    (hps : querySetting _id = some ps) :
    (∃ c : Bool,
      updateBody querySetting _id args
        = [{ _id := some _id, value := args.value.map some,
             editor := args.editor.map some, changed := some c }]
      ∧ (c = true ↔
          ¬ (deepEqOpt args.value ps.value ∧ deepEqOpt args.editor ps.editor)))
    ∧ (∃ c : Bool,
      resetBody querySetting _id
        = [{ _id := some ps._id, value := some ps.packageValue,
             editor := some ps.packageEditor, changed := some c }]
      ∧ (c = true ↔
          ¬ (deepEqOpt ps.packageValue ps.value
              ∧ deepEqOpt ps.packageEditor ps.editor)))
    ∧ (∀ s : IEditableSetting, ∃ c : Bool,
        (sectionResetPatch s).changed = some c
        ∧ (c = true ↔
            ¬ (deepEqOpt s.packageValue s.value
                ∧ deepEqOpt s.packageEditor s.editor))) := by
  refine ⟨?_, ?_, ?_⟩
  · refine ⟨(stringifyOpt ps.value != stringifyOpt args.value)
        || (stringifyOpt ps.editor != stringifyOpt args.editor),
      by simp [updateBody, hps], ?_⟩
    exact changedFlag_true_iff ps.value args.value ps.editor args.editor
  · refine ⟨(stringifyOpt ps.packageValue != stringifyOpt ps.value)
        || (stringifyOpt ps.packageEditor != stringifyOpt ps.editor),
      by simp [resetBody, hps], ?_⟩
    refine (changedFlag_true_iff ps.packageValue ps.value
      ps.packageEditor ps.editor).trans ?_
    constructor
    · intro h hc
      exact h ⟨(deepEqOpt_comm _ _).mp hc.1, (deepEqOpt_comm _ _).mp hc.2⟩
    · intro h hc
      exact h ⟨(deepEqOpt_comm _ _).mp hc.1, (deepEqOpt_comm _ _).mp hc.2⟩
  · intro s
    refine ⟨_, rfl, ?_⟩
    exact changedFlag_true_iff s.value s.packageValue s.editor s.packageEditor

/-- C1 amended witness: for a full `update` of `A` with a different value the
flag is `true` exactly because the supplied pair differs from the persisted
pair. -/
theorem dirty_flag_characterization_witness :
    ∃ c : Bool,
      updateBody qsW "A" { value := some (.str "v1"), editor := some (.str "color") }
        = [{ _id := some "A", value := some (some (.str "v1")),
             editor := some (some (.str "color")), changed := some c }]
      ∧ (c = true ↔
          ¬ (deepEqOpt (some (.str "v1")) psA.value
              ∧ deepEqOpt (some (.str "color")) psA.editor)) :=
  (dirty_flag_characterization qsW "A" psA
    { value := some (.str "v1"), editor := some (.str "color") } (by decide)).1

/-- C1 counterexample: starting from an unedited overlay of `A`, calling
`update` with only `{ value: "v0" }` (the persisted value, editor argument
absent) leaves the entry's `(value, editor)` pair deep-equal to the persisted
record, yet the emitted and stored flag is `changed = true`, because source
line 250 compared the persisted editor against the `undefined` editor
argument.  Likewise the section-level reset patch for `sA` sets the pair to
the package defaults — deep-equal to the persisted record `psA` — yet
carries `changed = true`, because lines 209–211 compare the overlay pair,
not the resulting one. -/
theorem dirty_invariant_counterexample :
    overlayApplyList qsW (fun _ => none)
        (updateBody qsW "A" { value := some (.str "v0") }) "A"
      = some { _id := "A", value := some (.str "v0"),
               editor := some (.str "color"),
               packageValue := some (.str "v0"),
               packageEditor := some (.str "color"),
               disabled := false, changed := true }
    ∧ deepEqOpt (some (.str "v0")) psA.value
    ∧ deepEqOpt (some (.str "color")) psA.editor
    ∧ ((sectionResetPatch sA).value = some psA.value
        ∧ (sectionResetPatch sA).editor = some psA.editor
        ∧ (sectionResetPatch sA).changed = some true) := by decide

/-- C3: the dirty comparison is deep *structural* equality: any two
structurally identical `(value, editor)` pairs — however constructed —
compare equal, so an `update` whose arguments are structurally equal to the
persisted pair, and a section-level reset of a member whose current pair
structurally equals its package defaults, report the setting as unchanged.
The quantification covers all `JValue`s, including arbitrarily nested arrays
and objects. -/
theorem dirty_comparison_is_structural (querySetting : String → Option ISetting)
    (_id : String) (ps : ISetting) (hps : querySetting _id = some ps) :
    (∀ args : SettingPatchArgs, args.value = ps.value → args.editor = ps.editor →
      updateBody querySetting _id args
        = [{ _id := some _id, value := args.value.map some,
             editor := args.editor.map some, changed := some false }])
    ∧ (∀ s : IEditableSetting, s.value = s.packageValue →
        s.editor = s.packageEditor →
        (sectionResetPatch s).changed = some false) := by
  constructor
  · intro args hv he
    simp [updateBody, hps, hv, he]
  · intro s hv he
    simp [sectionResetPatch, hv, he]

/-- A deeply nested settings value. -/
def nestedVal : JValue :=
  .obj (.cons "palette"
    (.arr (.cons (.str "red") (.cons (.num 2) (.cons .null .nil))))
    (.cons "dark" (.bool true) .nil))

/-- The same structure as `nestedVal`, constructed separately. -/
def nestedClone : JValue :=
  .obj (.cons "palette"
    (.arr (.cons (.str "red") (.cons (.num 2) (.cons .null .nil))))
    (.cons "dark" (.bool true) .nil))

/-- A persisted record whose value is the nested structure. -/
def psN : ISetting :=
  { _id := "N", value := some nestedVal, editor := none,
    packageValue := some nestedVal, packageEditor := none }

/-- Lookup for the nested fixture. -/
def qsN : String → Option ISetting :=
  fun i => if i = "N" then some psN else none

/-- C3 witness: updating `N` with a separately constructed but structurally
identical nested value reports it unchanged. -/
theorem dirty_comparison_is_structural_witness :
    updateBody qsN "N" { value := some nestedClone }
      = [{ _id := some "N", value := some (some nestedClone),
           editor := none, changed := some false }] :=
  (dirty_comparison_is_structural qsN "N" psN (by decide)).1
    { value := some nestedClone } (by decide) (by decide)

/-- With `a` pending, further calls keep overwriting the pending arguments
and the window elapsing fires only the last. -/
theorem debRun_calls_elapse {α : Type} (a : α) (tl : List α) :
    debRun (some a) (tl.map DebEvent.call ++ [DebEvent.elapse])
      = [tl.getLastD a] := by
  induction tl generalizing a with
  | nil => rfl
  | cons b tl ih =>
      rw [List.getLastD_cons, List.map_cons, List.cons_append, debRun]
      exact ih b

/-- With `a` pending, an unsubscribe cancels whatever is pending: nothing
ever fires. -/
theorem debRun_calls_unsub {α : Type} (a : α) (tl : List α) :
    debRun (some a) (tl.map DebEvent.call ++ [DebEvent.unsubscribe]) = [] := by
  induction tl generalizing a with
  | nil => rfl
  | cons b tl ih =>
      rw [List.map_cons, List.cons_append, debRun]
      exact ih b

/-- C9 (the debounce wrapper is modelled from the spec —
`useDebouncedCallback` lives in `@rocket.chat/fuselage-hooks`, outside
`src/`): a burst of `update(id, …)` calls within one debounce window
collapses into exactly one overlay mutation reflecting the arguments of the
last call; an unsubscribe before the window elapses yields zero mutations;
the pending state is per setting id, so an event for one key leaves every
other key's pending state unchanged; and the window parameter is 100 ms. -/
theorem update_debounce_coalesces (querySetting : String → Option ISetting)
    (_id : String) (ps : ISetting) (first : SettingPatchArgs)
    (rest : List SettingPatchArgs)
    (st : String → Option SettingPatchArgs) (k j : String)
    (ev : DebEvent SettingPatchArgs)
    (hps : querySetting _id = some ps) (hjk : j ≠ k) :
    updateMutations querySetting _id
        ((first :: rest).map DebEvent.call ++ [DebEvent.elapse])
      = [updateBody querySetting _id (rest.getLastD first)]
    ∧ updateMutations querySetting _id
        ((first :: rest).map DebEvent.call ++ [DebEvent.unsubscribe]) = []
    ∧ (keyedDebStep st k ev).1 j = st j
    ∧ updateDebounceMs = 100 := by
  refine ⟨?_, ?_, ?_, rfl⟩
  · have h1 : debRun none ((first :: rest).map DebEvent.call ++ [DebEvent.elapse])
        = [rest.getLastD first] := by
      simpa [debRun, debStep] using debRun_calls_elapse first rest
    rw [updateMutations, h1]
    simp [updateBody, hps]
  · have h1 : debRun none
        ((first :: rest).map DebEvent.call ++ [DebEvent.unsubscribe]) = [] := by
      simpa [debRun, debStep] using debRun_calls_unsub first rest
    rw [updateMutations, h1]
    rfl
  · simp [keyedDebStep, hjk]

/-- C9 witness: three `update("A", …)` calls inside one window mutate the
overlay exactly once with the last arguments; unsubscribing first mutates
nothing; stepping key `"A"` leaves key `"B"` untouched. -/
theorem update_debounce_coalesces_witness :
    updateMutations qsW "A"
        (([{ value := some (.str "x") }, { value := some (.str "y") },
            { value := some (.str "v1") }] :
              List SettingPatchArgs).map DebEvent.call ++ [DebEvent.elapse])
      = [updateBody qsW "A"
          ([({ value := some (.str "y") } : SettingPatchArgs),
            { value := some (.str "v1") }].getLastD { value := some (.str "x") })]
    ∧ updateMutations qsW "A"
        (([{ value := some (.str "x") }, { value := some (.str "y") },
            { value := some (.str "v1") }] :
              List SettingPatchArgs).map DebEvent.call ++ [DebEvent.unsubscribe])
        = []
    ∧ (keyedDebStep (fun _ => none) "A"
        (DebEvent.call ({ value := some (.str "x") } : SettingPatchArgs))).1 "B"
        = (fun (_ : String) => (none : Option SettingPatchArgs)) "B"
    ∧ updateDebounceMs = 100 :=
  update_debounce_coalesces qsW "A" psA { value := some (.str "x") }
    [{ value := some (.str "y") }, { value := some (.str "v1") }]
    (fun _ => none) "A" "B" (DebEvent.call { value := some (.str "x") })
    (by decide) (by decide)

end RocketChatSettings
